import Mathlib

/-!
Verification of the llm-d routing sidecar's connector-protocol engine.

The Go source is shallowly embedded: request bodies decoded by
encoding/json into map[string]interface{} become association lists of
string keys and JSON values; each connector protocol becomes a pure
function from the parsed client body and the (buffered) prefiller
response to an outcome record describing what was sent to the prefiller,
what was sent to the decoder, and what was written back to the client.
Strings handled by the Go code (targets, hosts) are embedded as lists of
characters, mirroring Go's byte-slice strings.
-/

namespace Sidecar

/-- JSON values as produced by Go's encoding/json when decoding into
map[string]interface{}: null, booleans, numbers, strings, arrays and
objects. Objects are association lists; the connectors only read and
write fields, so insertion order is irrelevant to every claim. -/
inductive JVal where
  | null
  | bool (b : Bool)
  | num (n : Int)
  | str (s : String)
  | arr (xs : List JVal)
  | obj (m : List (String × JVal))

/-- A decoded JSON object (Go map[string]interface{}). -/
abbrev JObj := List (String × JVal)

/-- Go map read m[k]: the value for key k, if present. -/
def jlookup : JObj → String → Option JVal
  | [], _ => none
  | (k, v) :: rest, key => if k = key then some v else jlookup rest key

/-- Go map assignment m[key] = val: overwrite in place or append. -/
def jset : JObj → String → JVal → JObj
  | [], key, val => [(key, val)]
  | (k, v) :: rest, key, val =>
    if k = key then (k, val) :: rest else (k, v) :: jset rest key val

/-- Go delete(m, key). -/
def jdel : JObj → String → JObj
  | [], _ => []
  | (k, v) :: rest, key =>
    if k = key then jdel rest key else (k, v) :: jdel rest key

theorem jlookup_jset_self (m : JObj) (k : String) (v : JVal) :
    jlookup (jset m k v) k = some v := by
  induction m with
  | nil => simp [jset, jlookup]
  | cons hd tl ih =>
    by_cases h : hd.1 = k
    · simp [jset, jlookup, h]
    · simp [jset, jlookup, h, ih]

theorem jlookup_jset_ne (m : JObj) (k k' : String) (v : JVal) (h : k ≠ k') :
    jlookup (jset m k v) k' = jlookup m k' := by
  have h2 : k' ≠ k := fun e => h e.symm
  induction m with
  | nil => simp [jset, jlookup, h]
  | cons hd tl ih =>
    by_cases hk : hd.1 = k
    · simp [jset, jlookup, hk, h]
    · by_cases hk' : hd.1 = k'
      · simp [jset, jlookup, hk, hk', h2]
      · simp [jset, jlookup, hk, hk', ih]

theorem jlookup_jdel_self (m : JObj) (k : String) :
    jlookup (jdel m k) k = none := by
  induction m with
  | nil => simp [jdel, jlookup]
  | cons hd tl ih =>
    by_cases h : hd.1 = k
    · simp [jdel, h, ih]
    · simp [jdel, jlookup, h, ih]

theorem jlookup_jdel_ne (m : JObj) (k k' : String) (h : k ≠ k') :
    jlookup (jdel m k) k' = jlookup m k' := by
  have h2 : k' ≠ k := fun e => h e.symm
  induction m with
  | nil => simp [jdel]
  | cons hd tl ih =>
    by_cases hk : hd.1 = k
    · simp [jdel, jlookup, hk, h, ih]
    · by_cases hk' : hd.1 = k'
      · simp [jdel, jlookup, hk, hk', h2]
      · simp [jdel, jlookup, hk, hk', ih]

/-! ## Static SSRF validator (connector_sglang.go: isPrivateOrSpecialIP) -/

/-- Go net.IP: a byte slice, length 4 for IPv4 or 16 for IPv6
(an IPv4 address may also be stored in 16-byte IPv4-mapped form). -/
abbrev NetIP := List Nat

/-- Go net isZeros: every byte is zero. -/
def isZeros (bs : List Nat) : Bool := bs.all (· == 0)

/-- Go net.IP.To4: a 4-byte slice is returned as is; a 16-byte slice is
accepted when bytes 0..9 are zero and bytes 10 and 11 are 0xff
(IPv4-mapped IPv6), returning its last four bytes; anything else gives
nil. -/
def to4 (ip : NetIP) : Option NetIP :=
  if ip.length == 4 then some ip
  else if ip.length == 16 && isZeros (ip.take 10)
          && ip.getD 10 0 == 255 && ip.getD 11 0 == 255 then
    some (ip.drop 12)
  else none

/-- The 32-bit value of a 4-byte IPv4 address (big-endian, as the bytes
appear on the wire). -/
def ip4ToNat : NetIP → Nat
  | [a, b, c, d] => ((a * 256 + b) * 256 + c) * 256 + d
  | _ => 0

/-- Go net.IPNet.Contains for a /len network whose base address is the
network address: the candidate address masked to the top len bits equals
the network address, i.e. both agree after discarding the low 32-len
bits. -/
def cidrContains (base len ip : Nat) : Bool :=
  ip / 2 ^ (32 - len) == base / 2 ^ (32 - len)

/-- The allowed subnets, populated from cidrStrings
(connector_sglang.go lines 390-419), as (network address, mask bits). -/
def specialCIDRs : List (Nat × Nat) :=
  [ (ip4ToNat [10, 0, 0, 0], 8),          -- 10.0.0.0/8 private (rfc 1918)
    (ip4ToNat [172, 16, 0, 0], 12),       -- 172.16.0.0/12 private (rfc 1918)
    (ip4ToNat [192, 168, 0, 0], 16),      -- 192.168.0.0/16 private (rfc 1918)
    (ip4ToNat [127, 0, 0, 0], 8),         -- 127.0.0.0/8 loopback
    (ip4ToNat [169, 254, 0, 0], 16),      -- 169.254.0.0/16 link-local
    (ip4ToNat [100, 64, 0, 0], 10),       -- 100.64.0.0/10 carrier-grade NAT
    (ip4ToNat [192, 0, 0, 0], 24),        -- 192.0.0.0/24 protocol assignments
    (ip4ToNat [192, 0, 2, 0], 24),        -- 192.0.2.0/24 test network
    (ip4ToNat [198, 18, 0, 0], 15),       -- 198.18.0.0/15 benchmarking
    (ip4ToNat [198, 51, 100, 0], 24),     -- 198.51.100.0/24 test network
    (ip4ToNat [203, 0, 113, 0], 24),      -- 203.0.113.0/24 test network
    (ip4ToNat [224, 0, 0, 0], 4),         -- 224.0.0.0/4 multicast
    (ip4ToNat [240, 0, 0, 0], 4),         -- 240.0.0.0/4 reserved
    (ip4ToNat [0, 0, 0, 0], 8),           -- 0.0.0.0/8 "this" network
    (ip4ToNat [255, 255, 255, 255], 32) ] -- broadcast address

/-- connector_sglang.go isPrivateOrSpecialIP: reduce to IPv4 via To4
(nil means reject) and accept when any allowed CIDR contains it. -/
def isPrivateOrSpecialIP (ip : NetIP) : Bool :=
  match to4 ip with
  | none => false
  | some ip4 => specialCIDRs.any fun c => cidrContains c.1 c.2 (ip4ToNat ip4)

/-- Membership of an address in a CIDR range, phrased as the claim reads
it: the address lies in the half-open interval of 2^(32-len) addresses
starting at the network base. -/
def inRange (base len ip : Nat) : Prop :=
  base ≤ ip ∧ ip < base + 2 ^ (32 - len)

/-- The ranges enumerated by the claim, written independently of the
source's CIDR table. -/
def claimedRanges : List (Nat × Nat) :=
  [ (ip4ToNat [10, 0, 0, 0], 8),
    (ip4ToNat [172, 16, 0, 0], 12),
    (ip4ToNat [192, 168, 0, 0], 16),
    (ip4ToNat [127, 0, 0, 0], 8),
    (ip4ToNat [169, 254, 0, 0], 16),
    (ip4ToNat [100, 64, 0, 0], 10),
    (ip4ToNat [192, 0, 0, 0], 24),
    (ip4ToNat [192, 0, 2, 0], 24),
    (ip4ToNat [198, 18, 0, 0], 15),
    (ip4ToNat [198, 51, 100, 0], 24),
    (ip4ToNat [203, 0, 113, 0], 24),
    (ip4ToNat [224, 0, 0, 0], 4),
    (ip4ToNat [240, 0, 0, 0], 4),
    (ip4ToNat [0, 0, 0, 0], 8),
    (ip4ToNat [255, 255, 255, 255], 32) ]

/-- Masking to the top bits agrees with interval membership whenever the
base is aligned to the mask width. -/
theorem cidrContains_iff_inRange (base len ip : Nat)
    (halign : base % 2 ^ (32 - len) = 0) :
    cidrContains base len ip = true ↔ inRange base len ip := by
  set c := 2 ^ (32 - len) with hc
  have hcpos : 0 < c := Nat.pos_pow_of_pos _ (by norm_num)
  obtain ⟨q, hq⟩ : c ∣ base := Nat.dvd_of_mod_eq_zero halign
  constructor
  · intro h
    have hdiv : ip / c = base / c := by
      simpa [cidrContains] using h
    have hbase : base / c = q := by
      rw [hq, Nat.mul_div_cancel_left _ hcpos]
    have hmod := Nat.div_add_mod ip c
    have hlt : ip % c < c := Nat.mod_lt _ hcpos
    constructor
    · calc base = c * q := hq
        _ ≤ c * (ip / c) := by rw [hdiv, hbase]
        _ ≤ ip := Nat.mul_div_le ip c
    · have : ip = c * (ip / c) + ip % c := hmod.symm
      rw [this, hdiv, hbase, ← hq]
      omega
  · rintro ⟨h1, h2⟩
    obtain ⟨d, hd⟩ := Nat.le.dest h1
    have hdlt : d < c := by omega
    have : ip / c = q := by
      rw [← hd, hq, Nat.mul_add_div hcpos, Nat.div_eq_of_lt hdlt]
      omega
    simp [cidrContains, this, hq, Nat.mul_div_cancel_left _ hcpos]

/-- Every entry of the allowlist table is aligned to its mask width. -/
theorem specialCIDRs_aligned :
    ∀ r ∈ specialCIDRs, r.1 % 2 ^ (32 - r.2) = 0 := by decide

/-- The source CIDR table and the claim's range list agree. -/
theorem specialCIDRs_eq_claimedRanges : specialCIDRs = claimedRanges := by decide

/-- C2: isPrivateOrSpecialIP accepts an address exactly when it has an
IPv4 form (To4 succeeds) and that IPv4 lies in one of the fifteen
private or special-purpose ranges enumerated by the claim; in particular
every address without an IPv4 form is rejected. -/
theorem isPrivateOrSpecialIP_iff_claimedRange (ip : NetIP) :
    isPrivateOrSpecialIP ip = true ↔
      ∃ q, to4 ip = some q ∧ ∃ r ∈ claimedRanges, inRange r.1 r.2 (ip4ToNat q) := by
  unfold isPrivateOrSpecialIP
  rcases h4 : to4 ip with _ | q
  · simp [h4]
  · rw [← specialCIDRs_eq_claimedRanges]
    simp only [h4, List.any_eq_true, Option.some.injEq]
    constructor
    · rintro ⟨r, hr, hc⟩
      exact ⟨q, rfl, r, hr,
        (cidrContains_iff_inRange r.1 r.2 _ (specialCIDRs_aligned r hr)).mp hc⟩
    · rintro ⟨q', hq', r, hr, hin⟩
      cases hq'
      exact ⟨r, hr,
        (cidrContains_iff_inRange r.1 r.2 _ (specialCIDRs_aligned r hr)).mpr hin⟩

/-! ## Target strings, URL host extraction, IPv4 literal parsing -/

/-- Go strings are byte slices; the sidecar only handles ASCII targets,
embedded as lists of characters. -/
abbrev GoStr := List Char

/-- strings.CutPrefix(hostPort, "http://"): drop the prefix when
present (connector_sglang.go line 343). -/
def cutHttp (s : GoStr) : GoStr :=
  if ("http://".toList).isPrefixOf s then s.drop 7 else s

/-- strings.Split on a single separator character: Go semantics, so the
result is never empty and Split("", sep) = [""]. -/
def splitOnChar (sep : Char) (l : GoStr) : List GoStr :=
  match l with
  | [] => [[]]
  | c :: cs =>
    if c == sep then [] :: splitOnChar sep cs
    else
      match splitOnChar sep cs with
      | [] => [[c]]
      | f :: fs => (c :: f) :: fs

theorem splitOnChar_ne_nil (sep : Char) (l : GoStr) : splitOnChar sep l ≠ [] := by
  cases l with
  | nil => simp [splitOnChar]
  | cons c cs =>
    by_cases h : c == sep
    · simp [splitOnChar, h]
    · simp only [splitOnChar, h, Bool.false_eq_true, if_false]
      cases splitOnChar sep cs <;> simp

/-- A character other than the separator survives splitting: it occurs
inside one of the produced fields. -/
theorem mem_field_of_mem_splitOnChar (sep c : Char) (l : GoStr)
    (hmem : c ∈ l) (hne : c ≠ sep) :
    ∃ f ∈ splitOnChar sep l, c ∈ f := by
  induction l with
  | nil => cases hmem
  | cons x xs ih =>
    by_cases hx : x == sep
    · have hcx : c ∈ xs := by
        rcases List.mem_cons.mp hmem with h | h
        · exact absurd (h ▸ (beq_iff_eq.mp hx)) hne
        · exact h
      obtain ⟨f, hf, hcf⟩ := ih hcx
      exact ⟨f, by simp [splitOnChar, hx, hf], hcf⟩
    · rcases heq : splitOnChar sep xs with _ | ⟨f0, fs⟩
      · exact absurd heq (splitOnChar_ne_nil sep xs)
      · rcases List.mem_cons.mp hmem with h | h
        · refine ⟨x :: f0, ?_, by simp [h]⟩
          simp [splitOnChar, hx, heq]
        · obtain ⟨f, hf, hcf⟩ := ih h
          rw [heq] at hf
          rcases List.mem_cons.mp hf with hh | hh
          · exact ⟨x :: f0, by simp [splitOnChar, hx, heq], by simp [hh ▸ hcf]⟩
          · exact ⟨f, by simp [splitOnChar, hx, heq, hh], hcf⟩

/-- The numeric value of a string of decimal digits. -/
def digitsVal (cs : GoStr) : Nat :=
  cs.foldl (fun n c => n * 10 + (c.toNat - 48)) 0

/-- One dotted-decimal field of a Go IPv4 literal: one to three decimal
digits, no leading zero, value at most 255 (net.ParseIP field rules). -/
def parseIPv4Field (cs : GoStr) : Option Nat :=
  if cs.isEmpty then none
  else if !(cs.all Char.isDigit) then none
  else if 3 < cs.length then none
  else if 1 < cs.length && cs.headD ' ' == '0' then none
  else if digitsVal cs ≤ 255 then some (digitsVal cs) else none

/-- Go net.ParseIP restricted to IPv4 literals: exactly four valid
dotted-decimal fields. Strings that are not IPv4 literals (including
host:port strings, names, and IPv6 literals, none of which reach this
point as resolvable IPv4) yield none, which the caller treats the same
as an address rejected by the allowlist. First every dotted field is
parsed, aborting on the first invalid one. -/
def parseFields : List GoStr → Option (List Nat)
  | [] => some []
  | f :: fs =>
    match parseIPv4Field f, parseFields fs with
    | some v, some vs => some (v :: vs)
    | _, _ => none

def parseIPv4 (host : GoStr) : Option NetIP :=
  match parseFields (splitOnChar '.' host) with
  | none => none
  | some fields => if fields.length == 4 then some fields else none

theorem parseFields_none {l : List GoStr} {f : GoStr}
    (hf : f ∈ l) (hfield : parseIPv4Field f = none) :
    parseFields l = none := by
  induction l with
  | nil => cases hf
  | cons g gs ih =>
    rcases List.mem_cons.mp hf with hh | hh
    · simp [parseFields, hh ▸ hfield]
    · rcases hg : parseIPv4Field g with _ | v
      · simp [parseFields, hg]
      · simp [parseFields, hg, ih hh]

theorem parseIPv4_none_of_mem_colon (host : GoStr) (h : ':' ∈ host) :
    parseIPv4 host = none := by
  obtain ⟨f, hf, hcf⟩ := mem_field_of_mem_splitOnChar '.' ':' host h (by decide)
  have hfield : parseIPv4Field f = none := by
    have hnotall : f.all Char.isDigit = false := by
      rcases hall : f.all Char.isDigit with _ | _
      · rfl
      · have := List.all_eq_true.mp hall ':' hcf
        simp at this
    have hne : f.isEmpty = false := by
      cases f with
      | nil => cases hcf
      | cons a as => rfl
    simp [parseIPv4Field, hne, hnotall]
  have hnone : parseFields (splitOnChar '.' host) = none :=
    parseFields_none hf hfield
  unfold parseIPv4
  rw [hnone]

/-- Characters Go's url.Parse accepts in a registered host name; the
model abstains (reports a parse error) on anything else. -/
def hostChar (c : Char) : Bool :=
  c.isAlphanum || c == '.' || c == '-' || c == '_' || c == ':'

/-- The characters after the last colon. -/
def afterLastColon (cs : GoStr) : GoStr :=
  (cs.reverse.takeWhile (fun c => !(c == ':'))).reverse

/-- Go url validOptionalPort: when the authority has a colon, everything
after the last colon must be decimal digits (possibly empty). -/
def portOk (cs : GoStr) : Bool :=
  !(cs.contains ':') || (afterLastColon cs).all Char.isDigit

/-- Model of url.Parse(pfx ++ hostPort).Host for the scheme-prefixed
target strings the sidecar builds: the authority runs up to the first
slash and keeps any :port suffix; an invalid port or an invalid host
character is a parse error (none). Bracketed IPv6 authorities and
userinfo are outside the modelled fragment and also map to none. -/
def urlHost (s : GoStr) : Option GoStr :=
  let rest :=
    if ("http://".toList).isPrefixOf s then some (s.drop 7)
    else if ("https://".toList).isPrefixOf s then some (s.drop 8)
    else none
  match rest with
  | none => none
  | some r =>
    let authority := r.takeWhile (fun c => !(c == '/'))
    if authority.all hostChar && portOk authority then some authority else none

/-! ## Prefiller handler cache and prefillerProxyHandler -/

/-- The LRU cache of prefiller reverse-proxy handlers (lru.New(16) in
NewProxy), most recently used first. Handlers are identified by their
construction order. -/
structure LruCache where
  entries : List (GoStr × Nat)

/-- NewProxy creates the cache with capacity 16. -/
def lruCapacity : Nat := 16

/-- hashicorp lru Get: a hit returns the value and marks the key most
recently used. -/
def lruGet (c : LruCache) (k : GoStr) : Option Nat × LruCache :=
  match c.entries.lookup k with
  | some v => (some v, ⟨(k, v) :: c.entries.filter (fun e => !(e.1 == k))⟩)
  | none => (none, c)

/-- hashicorp lru Add: insert or refresh the key as most recently used,
evicting the least recently used entries beyond the capacity. -/
def lruAdd (c : LruCache) (k : GoStr) (v : Nat) : LruCache :=
  ⟨((k, v) :: c.entries.filter (fun e => !(e.1 == k))).take lruCapacity⟩

/-- Server state touched by prefillerProxyHandler: the handler cache and
a counter giving fresh identities to newly constructed reverse proxies. -/
structure ProxyState where
  cache : LruCache
  nextHandlerId : Nat

/-- The result of prefillerProxyHandler: the returned handler (none is
Go's nil), whether the returned error is non-nil, and the state after
the call. -/
structure HandlerResult where
  handler : Option Nat
  errNonNil : Bool
  state : ProxyState

/-- connector_sglang.go lines 336-362: look the target up in the cache
under the original key; on a miss trim any http:// prefix, parse
pfx ++ trimmed as a URL (failure returns the parse error), then require
the URL host to be an allowlisted IPv4 literal. When the host fails that
check the function returns nil for the handler together with the error
from url.Parse — which at that point is nil. A new handler is inserted
under the trimmed key. -/
def prefillerProxyHandler (st : ProxyState) (pfx : GoStr) (hostPort : GoStr) :
    HandlerResult :=
  match lruGet st.cache hostPort with
  | (some h, c1) => ⟨some h, false, ⟨c1, st.nextHandlerId⟩⟩
  | (none, _) =>
    let trimmed := cutHttp hostPort
    match urlHost (pfx ++ trimmed) with
    | none => ⟨none, true, st⟩
    | some host =>
      match parseIPv4 host with
      | none => ⟨none, false, st⟩
      | some ip4 =>
        if isPrivateOrSpecialIP ip4 then
          ⟨some st.nextHandlerId, false,
            ⟨lruAdd st.cache trimmed st.nextHandlerId, st.nextHandlerId + 1⟩⟩
        else ⟨none, false, st⟩

/-- What the NIXL v1 and LMCache callers do with the returned pair
(chat_completions.go lines 86-95 and 169-180): a non-nil error is sent
to errorBadGateway, otherwise ServeHTTP is invoked on the returned
handler — a nil-pointer panic when that handler is nil. -/
inductive CallerNext where
  | respondBadGateway
  | serveWith (h : Nat)
  | nilHandlerPanic
deriving DecidableEq

/-- The caller-side check: only the error is tested before ServeHTTP. -/
def callerDispatch (r : HandlerResult) : CallerNext :=
  if r.errNonNil then .respondBadGateway
  else
    match r.handler with
    | some h => .serveWith h
    | none => .nilHandlerPanic

/-! ## Wire-level field names (connector_sglang.go lines 202-216) -/

abbrev requestFieldKVTransferParams : String := "kv_transfer_params"
abbrev requestFieldMaxTokens : String := "max_tokens"
/-- Declared with the other request-field constants in a file not under
src/; its value is the spec's fixed wire-level field name. -/
abbrev requestFieldMaxCompletionTokens : String := "max_completion_tokens"
abbrev requestFieldDoRemotePrefill : String := "do_remote_prefill"
abbrev requestFieldDoRemoteDecode : String := "do_remote_decode"
abbrev requestFieldRemoteBlockIDs : String := "remote_block_ids"
abbrev requestFieldRemoteEngineID : String := "remote_engine_id"
abbrev requestFieldRemoteHost : String := "remote_host"
abbrev requestFieldRemotePort : String := "remote_port"
abbrev requestFieldStream : String := "stream"
abbrev requestFieldStreamOptions : String := "stream_options"

/-! ## NIXL v1 protocol (chat_completions.go: runNIXLProtocol) -/

/-- The prefiller's buffered response as the protocol sees it: the
captured status code and the result of json.Unmarshal of the captured
body into map[string]any (none models an unmarshal failure, including
non-object JSON). -/
structure PrefillerResp where
  status : Nat
  body : Option JObj

/-- Observable outcome of one NIXL v1 run: the body sent to the
prefiller (none when no prefill request was issued), the body sent to
the local decoder (none when the decoder proxy was never invoked), any
status code the handler wrote directly to the client, and whether the
handler wrote no body bytes of its own. -/
structure NixlOutcome where
  prefillBody : Option JObj := none
  decodeBody : Option JObj := none
  clientStatus : Option Nat := none
  clientBodyEmpty : Bool := true

/-- chat_completions.go lines 146-167: save stream and stream_options,
set stream = false, set kv_transfer_params = {do_remote_decode: true},
delete stream_options, and marshal the result for the prefiller. -/
def nixlPrefillBody (cr : JObj) : JObj :=
  jdel
    (jset (jset cr requestFieldStream (.bool false))
      requestFieldKVTransferParams
      (.obj [(requestFieldDoRemoteDecode, .bool true)]))
    requestFieldStreamOptions

/-- chat_completions.go lines 242-270: the decode body. kvParams is the
same map object stored under kv_transfer_params in the prefill body, so
the mutations (delete do_remote_decode; add do_remote_prefill and the
four remote_* fields, a missing source field storing Go's nil, i.e.
JSON null) land in the marshalled request; stream is restored to its
original value and stream_options only if originally present. -/
def nixlDecodeKv (kvPrefill : JObj) : JObj :=
  let kv0 : JObj := [(requestFieldDoRemoteDecode, .bool true)]
  let kv1 := jdel kv0 requestFieldDoRemoteDecode
  let kv2 := jset kv1 requestFieldDoRemotePrefill (.bool true)
  let kv3 := jset kv2 requestFieldRemoteBlockIDs
    ((jlookup kvPrefill requestFieldRemoteBlockIDs).getD .null)
  let kv4 := jset kv3 requestFieldRemoteEngineID
    ((jlookup kvPrefill requestFieldRemoteEngineID).getD .null)
  let kv5 := jset kv4 requestFieldRemoteHost
    ((jlookup kvPrefill requestFieldRemoteHost).getD .null)
  jset kv5 requestFieldRemotePort
    ((jlookup kvPrefill requestFieldRemotePort).getD .null)

def nixlDecodeBody (cr : JObj) (kvPrefill : JObj) : JObj :=
  let c1 := jdel (nixlPrefillBody cr) requestFieldStream
  let c2 :=
    match jlookup cr requestFieldStream with
    | some v => jset c1 requestFieldStream v
    | none => c1
  let c3 :=
    match jlookup cr requestFieldStreamOptions with
    | some v => jset c2 requestFieldStreamOptions v
    | none => c2
  jset c3 requestFieldKVTransferParams (.obj (nixlDecodeKv kvPrefill))

/-- chat_completions.go lines 109-275, after the prefiller handler has
been obtained: parsed is the json.Unmarshal result of the client body
(none gives errorJSONInvalid, a 400 with a JSON error body); a non-2xx
buffered prefiller status is propagated bare; an unparsable prefiller
body gives a 400; a missing or non-object kv_transfer_params logs a
warning and returns writing nothing; otherwise the rewritten body goes
to the decoder proxy. -/
def runNIXLProtocol (parsed : Option JObj) (resp : PrefillerResp) : NixlOutcome :=
  match parsed with
  | none => { clientStatus := some 400, clientBodyEmpty := false }
  | some cr =>
    let pbody := nixlPrefillBody cr
    if resp.status < 200 ∨ 300 ≤ resp.status then
      { prefillBody := some pbody, clientStatus := some resp.status }
    else
      match resp.body with
      | none =>
        { prefillBody := some pbody, clientStatus := some 400,
          clientBodyEmpty := false }
      | some presp =>
        match jlookup presp requestFieldKVTransferParams with
        | none => { prefillBody := some pbody }
        | some kvRaw =>
          match kvRaw with
          | .obj kvPrefill =>
            { prefillBody := some pbody,
              decodeBody := some (nixlDecodeBody cr kvPrefill) }
          | _ => { prefillBody := some pbody }

/-! ## LMCache protocol (chat_completions.go: runLMCacheProtocol) -/

/-- Observable outcome of one LMCache run; the decoder receives the raw
original bytes. -/
structure LMCacheOutcome where
  prefillBody : Option JObj := none
  decodeRaw : Option GoStr := none
  clientStatus : Option Nat := none
  clientBodyEmpty : Bool := true

/-- chat_completions.go lines 45-107, after the prefiller handler has
been obtained: clamp max_tokens and max_completion_tokens to 1 for the
prefiller; a non-2xx buffered prefiller status is propagated bare and
the decoder is skipped; otherwise the untouched original bytes go to
the decoder proxy. -/
def runLMCacheProtocol (raw : GoStr) (parsed : Option JObj) (status : Nat) :
    LMCacheOutcome :=
  match parsed with
  | none => { clientStatus := some 400, clientBodyEmpty := false }
  | some cr =>
    let pbody := jset (jset cr requestFieldMaxTokens (.num 1))
      requestFieldMaxCompletionTokens (.num 1)
    if status < 200 ∨ 300 ≤ status then
      { prefillBody := some pbody, clientStatus := some status }
    else
      { prefillBody := some pbody, decodeRaw := some raw }

/-! ## SGLang bootstrap fields (connector_sglang.go lines 111-167) -/

/-- strconv.Atoi: an optional sign followed by at least one decimal
digit (overflow is irrelevant at the sizes involved here). -/
def atoi (s : GoStr) : Option Int :=
  match s with
  | [] => none
  | '-' :: ds =>
    if !ds.isEmpty && ds.all Char.isDigit then some (-(digitsVal ds : Int)) else none
  | '+' :: ds =>
    if !ds.isEmpty && ds.all Char.isDigit then some ((digitsVal ds : Int)) else none
  | ds => if ds.all Char.isDigit then some ((digitsVal ds : Int)) else none

/-- connector_sglang.go lines 161-167 (generateBootstrapHost):
strings.Split(prefillHost, ":")[0] — the prefix before the first colon. -/
def generateBootstrapHost (prefillHost : GoStr) : GoStr :=
  (splitOnChar ':' prefillHost).headD []

/-- connector_sglang.go lines 120-126: the bootstrap port defaults to
8998 and is overridden by SGLANG_BOOTSTRAP_PORT when that variable is
set, non-empty and numeric. -/
def sglangBootstrapPort (env : Option GoStr) : Int :=
  match env with
  | none => 8998
  | some s =>
    if s.isEmpty then 8998
    else
      match atoi s with
      | some n => n
      | none => 8998

/-- connector_sglang.go lines 157-159 (generateSGLangRoomID):
time.Now().UnixNano() + int64(rand.Intn(1000)); the clock reading and
the random offset (below 1000) are made explicit inputs. -/
def generateSGLangRoomID (nowUnixNano : Int) (randOffset : Nat) : Int :=
  nowUnixNano + randOffset

/-- connector_sglang.go lines 111-141 (addSGLangBootstrapInfo): copy the
request map and add the bootstrap fields. The caller builds the prefill
and the decode body with two identical calls (lines 58-59), so both
bodies carry exactly these fields. -/
def addSGLangBootstrapInfo (requestData : JObj) (prefillHost : GoStr)
    (roomID : Int) (env : Option GoStr) : JObj :=
  let m1 := jset requestData "bootstrap_host"
    (.str ⟨generateBootstrapHost prefillHost⟩)
  let m2 := jset m1 "bootstrap_port" (.num (sglangBootstrapPort env))
  let m3 := jset m2 "bootstrap_room" (.num roomID)
  let m4 := jset m3 "bootstrap_room_id" (.num roomID)
  jset m4 "room_id" (.num roomID)

theorem generateBootstrapHost_strip (h p : GoStr) (hne : ':' ∉ h) :
    generateBootstrapHost (h ++ ':' :: p) = h := by
  induction h with
  | nil => simp [generateBootstrapHost, splitOnChar]
  | cons c cs ih =>
    have hc : (c == ':') = false := by
      simp only [List.mem_cons, not_or] at hne
      simp [beq_eq_false_iff_ne]
      exact fun e => hne.1 e.symm
    have hcs : ':' ∉ cs := by
      simp only [List.mem_cons, not_or] at hne
      exact hne.2
    have := ih hcs
    unfold generateBootstrapHost at this ⊢
    rcases heq : splitOnChar ':' (cs ++ ':' :: p) with _ | ⟨f0, fs⟩
    · exact absurd heq (splitOnChar_ne_nil ':' _)
    · rw [heq] at this
      simp only [List.headD] at this
      simp [splitOnChar, hc, heq, this]

/-! ## Prefill target extraction (spec section 4.2) -/

/-- ASCII whitespace as trimmed by strings.TrimSpace. -/
def isSpaceChar (c : Char) : Bool :=
  c == ' ' || c == '\t' || c == '\n' || c == '\r'

/-- strings.TrimSpace. -/
def trimSpace (s : GoStr) : GoStr :=
  ((s.dropWhile isSpaceChar).reverse.dropWhile isSpaceChar).reverse

/-- Deduplication keeping the first occurrence, with an accumulator of
already-seen values. -/
def dedupFirstAux (seen : List GoStr) : List GoStr → List GoStr
  | [] => []
  | x :: xs =>
    if x ∈ seen then dedupFirstAux seen xs
    else x :: dedupFirstAux (x :: seen) xs

def dedupFirst (l : List GoStr) : List GoStr := dedupFirstAux [] l

/-- Modelled from the spec: the prefill target extraction of the
chat-completions handler (header x-prefiller-host-port with legacy
fallback, comma splitting, trimming, dropping empties, first-occurrence
deduplication) is not under src/ — src holds only its unit test and an
older handler reading a single x-prefiller-url value — so it is modelled
from spec section 4.2, steps 1-3. -/
def cleanTargets (occurrences : List GoStr) : List GoStr :=
  dedupFirst
    ((((occurrences.map (splitOnChar ',')).flatten).map trimSpace).filter
      (fun t => !t.isEmpty))

/-- Modelled from the spec: header fallback (spec section 4.2 step 1) —
the candidate occurrences come from x-prefiller-host-port, or from
legacy x-prefiller-url when the former is absent. -/
def extractTargets (hostPortVals legacyVals : List GoStr) : List GoStr :=
  cleanTargets (if hostPortVals.isEmpty then legacyVals else hostPortVals)

/-- Modelled from the spec: selection (spec section 4.2 steps 2 and 4) —
an empty candidate list means pass-through (none); with sampling
disabled the first entry is picked, with sampling enabled a random one. -/
def selectTarget (samplingEnabled : Bool) (randIndex : Nat)
    (targets : List GoStr) : Option GoStr :=
  match targets with
  | [] => none
  | t :: _ =>
    if samplingEnabled then some (targets.getD (randIndex % targets.length) t)
    else some t

theorem mem_of_mem_dedupFirstAux {seen : List GoStr} {l : List GoStr} {y : GoStr}
    (h : y ∈ dedupFirstAux seen l) : y ∈ l := by
  induction l generalizing seen with
  | nil => simp [dedupFirstAux] at h
  | cons x xs ih =>
    by_cases hx : x ∈ seen
    · simp only [dedupFirstAux, if_pos hx] at h
      exact List.mem_cons_of_mem _ (ih h)
    · simp only [dedupFirstAux, if_neg hx, List.mem_cons] at h
      rcases h with h | h
      · exact h ▸ List.mem_cons_self _ _
      · exact List.mem_cons_of_mem _ (ih h)

theorem dedupFirstAux_not_mem_seen {seen : List GoStr} {l : List GoStr} {y : GoStr}
    (h : y ∈ dedupFirstAux seen l) : y ∉ seen := by
  induction l generalizing seen with
  | nil => simp [dedupFirstAux] at h
  | cons x xs ih =>
    by_cases hx : x ∈ seen
    · simp only [dedupFirstAux, if_pos hx] at h
      exact ih h
    · simp only [dedupFirstAux, if_neg hx, List.mem_cons] at h
      rcases h with h | h
      · exact h ▸ hx
      · intro hy
        exact ih h (List.mem_cons_of_mem _ hy)

theorem dedupFirstAux_nodup (seen : List GoStr) (l : List GoStr) :
    (dedupFirstAux seen l).Nodup := by
  induction l generalizing seen with
  | nil => simp [dedupFirstAux]
  | cons x xs ih =>
    by_cases hx : x ∈ seen
    · simpa [dedupFirstAux, if_pos hx] using ih seen
    · simp only [dedupFirstAux, if_neg hx]
      refine List.nodup_cons.mpr ⟨?_, ih (x :: seen)⟩
      intro hmem
      exact dedupFirstAux_not_mem_seen hmem (List.mem_cons_self _ _)

/-! ## NIXL v2 protocol (spec section 4.5.1) -/

/-- Observable outcome of one NIXL v2 run. -/
structure V2Outcome where
  prefillBody : Option JObj := none
  decodeRaw : Option GoStr := none
  clientStatus : Option Nat := none

/-- Modelled from the spec: runNIXLProtocolV2 is installed by NewProxy
(connector_sglang.go lines 253-262) but its body is not under src/.
Spec section 4.5.1: decode the body (failure means 400); set
kv_transfer_params.do_remote_prefill = true and send that rewrite to the
prefiller; a non-2xx prefiller status is propagated and the decoder is
skipped; on 2xx the original, unmodified client bytes are forwarded to
the local decoder. -/
def runNIXLProtocolV2 (raw : GoStr) (parsed : Option JObj)
    (resp : PrefillerResp) : V2Outcome :=
  match parsed with
  | none => { clientStatus := some 400 }
  | some cr =>
    let kvPrev : JObj :=
      match jlookup cr requestFieldKVTransferParams with
      | some (.obj m) => m
      | _ => []
    let pbody := jset cr requestFieldKVTransferParams
      (.obj (jset kvPrev requestFieldDoRemotePrefill (.bool true)))
    if resp.status < 200 ∨ 300 ≤ resp.status then
      { prefillBody := some pbody, clientStatus := some resp.status }
    else
      { prefillBody := some pbody, decodeRaw := some raw }

/-! ## Claim theorems -/

/-- C7: for every NIXL v2 request whose prefill step succeeds with a 2xx
status, the body forwarded to the local decoder is byte-for-byte the
original client request body. -/
theorem nixlv2_decode_body_is_original (raw : GoStr) (cr : JObj)
    (resp : PrefillerResp) (h1 : 200 ≤ resp.status) (h2 : resp.status < 300) :
    (runNIXLProtocolV2 raw (some cr) resp).decodeRaw = some raw := by
  have hc : ¬ (resp.status < 200 ∨ 300 ≤ resp.status) := by omega
  simp [runNIXLProtocolV2, hc]

theorem nixlv2_decode_body_is_original_witness :
    (runNIXLProtocolV2 ("abc".toList) (some [("model", .str "m")])
      ⟨200, some []⟩).decodeRaw = some ("abc".toList) :=
  nixlv2_decode_body_is_original ("abc".toList) [("model", .str "m")]
    ⟨200, some []⟩ (by norm_num) (by norm_num)

/-- C8 as stated is false on the code: the room identifier is the
nanosecond clock reading plus a random offset below 1000, so two
successive requests served at the same clock reading with the same
random draw receive the same bootstrap_room. -/
theorem sglang_room_counterexample :
    ¬ (∀ (t1 t2 : Int) (o1 o2 : Nat), o1 < 1000 → o2 < 1000 → t1 ≤ t2 →
        generateSGLangRoomID t1 o1 ≠ generateSGLangRoomID t2 o2) := by
  intro hclaim
  exact hclaim 1700000000000000000 1700000000000000000 5 5
    (by norm_num) (by norm_num) le_rfl rfl

/-- C8 amended: both injected bodies carry bootstrap_host equal to the
prefiller target with the port stripped, bootstrap_port equal to the
numeric SGLANG_BOOTSTRAP_PORT override or 8998, and bootstrap_room equal
to the clock reading plus a random offset below 1000 — positive whenever
the clock reading is positive, and distinct for two successive requests
whenever their clock readings are at least 1000 nanoseconds apart. -/
theorem sglang_bootstrap_fields :
    (∀ (rd : JObj) (host : GoStr) (room : Int) (env : Option GoStr),
      jlookup (addSGLangBootstrapInfo rd host room env) "bootstrap_host" =
        some (.str ⟨generateBootstrapHost host⟩) ∧
      jlookup (addSGLangBootstrapInfo rd host room env) "bootstrap_port" =
        some (.num (sglangBootstrapPort env)) ∧
      jlookup (addSGLangBootstrapInfo rd host room env) "bootstrap_room" =
        some (.num room)) ∧
    (∀ h p, ':' ∉ h → generateBootstrapHost (h ++ ':' :: p) = h) ∧
    (sglangBootstrapPort none = 8998) ∧
    (∀ s n, atoi s = some n → sglangBootstrapPort (some s) = n) ∧
    (∀ s, atoi s = none → sglangBootstrapPort (some s) = 8998) ∧
    (∀ (t : Int) (o : Nat), 0 < t → 0 < generateSGLangRoomID t o) ∧
    (∀ (t1 t2 : Int) (o1 o2 : Nat), o1 < 1000 → o2 < 1000 →
      t1 + 1000 ≤ t2 → generateSGLangRoomID t1 o1 ≠ generateSGLangRoomID t2 o2) := by
  refine ⟨?_, ?_, rfl, ?_, ?_, ?_, ?_⟩
  · intro rd host room env
    refine ⟨?_, ?_, ?_⟩
    · unfold addSGLangBootstrapInfo
      rw [jlookup_jset_ne _ _ _ _ (by decide), jlookup_jset_ne _ _ _ _ (by decide),
        jlookup_jset_ne _ _ _ _ (by decide), jlookup_jset_ne _ _ _ _ (by decide),
        jlookup_jset_self]
    · unfold addSGLangBootstrapInfo
      rw [jlookup_jset_ne _ _ _ _ (by decide), jlookup_jset_ne _ _ _ _ (by decide),
        jlookup_jset_ne _ _ _ _ (by decide), jlookup_jset_self]
    · unfold addSGLangBootstrapInfo
      rw [jlookup_jset_ne _ _ _ _ (by decide), jlookup_jset_ne _ _ _ _ (by decide),
        jlookup_jset_self]
  · exact generateBootstrapHost_strip
  · intro s n hs
    cases s with
    | nil => simp [atoi] at hs
    | cons c cs => simp [sglangBootstrapPort, List.isEmpty, hs]
  · intro s hs
    cases s with
    | nil => simp [sglangBootstrapPort]
    | cons c cs => simp [sglangBootstrapPort, List.isEmpty, hs]
  · intro t o ht
    unfold generateSGLangRoomID
    omega
  · intro t1 t2 o1 o2 h1 h2 hsep
    unfold generateSGLangRoomID
    omega

theorem sglang_bootstrap_fields_witness :
    generateBootstrapHost ("pod-1".toList ++ ':' :: "8000".toList) = "pod-1".toList ∧
    sglangBootstrapPort (some ("7000".toList)) = 7000 ∧
    (0 : Int) < generateSGLangRoomID 1700000000000000000 5 ∧
    generateSGLangRoomID 1700000000000000000 5 ≠
      generateSGLangRoomID 1700000000000001000 7 :=
  ⟨sglang_bootstrap_fields.2.1 _ _ (by decide),
   sglang_bootstrap_fields.2.2.2.1 _ 7000 (by decide),
   sglang_bootstrap_fields.2.2.2.2.2.1 _ 5 (by norm_num),
   sglang_bootstrap_fields.2.2.2.2.2.2 _ _ 5 7 (by norm_num) (by norm_num)
     (by norm_num)⟩

theorem nixlDecodeKv_lookups (kvp : JObj) :
    jlookup (nixlDecodeKv kvp) requestFieldRemoteBlockIDs =
      some ((jlookup kvp requestFieldRemoteBlockIDs).getD .null) ∧
    jlookup (nixlDecodeKv kvp) requestFieldRemoteEngineID =
      some ((jlookup kvp requestFieldRemoteEngineID).getD .null) ∧
    jlookup (nixlDecodeKv kvp) requestFieldRemoteHost =
      some ((jlookup kvp requestFieldRemoteHost).getD .null) ∧
    jlookup (nixlDecodeKv kvp) requestFieldRemotePort =
      some ((jlookup kvp requestFieldRemotePort).getD .null) ∧
    jlookup (nixlDecodeKv kvp) requestFieldDoRemotePrefill = some (.bool true) ∧
    jlookup (nixlDecodeKv kvp) requestFieldDoRemoteDecode = none := by
  unfold nixlDecodeKv
  refine ⟨?_, ?_, ?_, ?_, ?_, ?_⟩
  · rw [jlookup_jset_ne _ _ _ _ (by decide), jlookup_jset_ne _ _ _ _ (by decide),
      jlookup_jset_ne _ _ _ _ (by decide), jlookup_jset_self]
  · rw [jlookup_jset_ne _ _ _ _ (by decide), jlookup_jset_ne _ _ _ _ (by decide),
      jlookup_jset_self]
  · rw [jlookup_jset_ne _ _ _ _ (by decide), jlookup_jset_self]
  · rw [jlookup_jset_self]
  · rw [jlookup_jset_ne _ _ _ _ (by decide), jlookup_jset_ne _ _ _ _ (by decide),
      jlookup_jset_ne _ _ _ _ (by decide), jlookup_jset_ne _ _ _ _ (by decide),
      jlookup_jset_self]
  · rw [jlookup_jset_ne _ _ _ _ (by decide), jlookup_jset_ne _ _ _ _ (by decide),
      jlookup_jset_ne _ _ _ _ (by decide), jlookup_jset_ne _ _ _ _ (by decide),
      jlookup_jset_ne _ _ _ _ (by decide), jlookup_jdel_self]

theorem nixlDecodeBody_lookups (cr kvp : JObj) :
    jlookup (nixlDecodeBody cr kvp) requestFieldKVTransferParams =
      some (.obj (nixlDecodeKv kvp)) ∧
    jlookup (nixlDecodeBody cr kvp) requestFieldStream =
      jlookup cr requestFieldStream ∧
    jlookup (nixlDecodeBody cr kvp) requestFieldStreamOptions =
      jlookup cr requestFieldStreamOptions := by
  unfold nixlDecodeBody
  refine ⟨by rw [jlookup_jset_self], ?_, ?_⟩
  · rw [jlookup_jset_ne _ _ _ _ (by decide)]
    rcases hso : jlookup cr requestFieldStreamOptions with _ | vso <;>
      rcases hs : jlookup cr requestFieldStream with _ | vs <;>
      simp only [hso, hs] <;>
      first
        | rw [jlookup_jdel_self]
        | rw [jlookup_jset_ne _ _ _ _ (by decide), jlookup_jdel_self]
        | rw [jlookup_jset_self]
        | rw [jlookup_jset_ne _ _ _ _ (by decide), jlookup_jset_self]
  · rw [jlookup_jset_ne _ _ _ _ (by decide)]
    rcases hso : jlookup cr requestFieldStreamOptions with _ | vso <;>
      simp only [hso]
    · rcases hs : jlookup cr requestFieldStream with _ | vs <;> simp only [hs]
      · rw [jlookup_jdel_ne _ _ _ (by decide)]
        unfold nixlPrefillBody
        rw [jlookup_jdel_self]
      · rw [jlookup_jset_ne _ _ _ _ (by decide), jlookup_jdel_ne _ _ _ (by decide)]
        unfold nixlPrefillBody
        rw [jlookup_jdel_self]
    · rw [jlookup_jset_self]

/-- C4: when the NIXL v1 prefiller call returns 2xx JSON whose
kv_transfer_params object carries remote_block_ids, remote_engine_id,
remote_host and remote_port, the body forwarded to the decoder carries
those four values under kv_transfer_params together with
do_remote_prefill = true and without do_remote_decode, and the original
stream and stream_options of the client body are restored, each absent
again if it was absent originally. -/
theorem nixl_handshake_roundtrip (cr : JObj) (resp : PrefillerResp)
    (presp kvp : JObj) (bids eid rhost rport : JVal)
    (hst1 : 200 ≤ resp.status) (hst2 : resp.status < 300)
    (hbody : resp.body = some presp)
    (hkv : jlookup presp requestFieldKVTransferParams = some (.obj kvp))
    (hb : jlookup kvp requestFieldRemoteBlockIDs = some bids)
    (he : jlookup kvp requestFieldRemoteEngineID = some eid)
    (hh : jlookup kvp requestFieldRemoteHost = some rhost)
    (hp : jlookup kvp requestFieldRemotePort = some rport) :
    ∃ d kv, (runNIXLProtocol (some cr) resp).decodeBody = some d ∧
      jlookup d requestFieldKVTransferParams = some (.obj kv) ∧
      jlookup kv requestFieldRemoteBlockIDs = some bids ∧
      jlookup kv requestFieldRemoteEngineID = some eid ∧
      jlookup kv requestFieldRemoteHost = some rhost ∧
      jlookup kv requestFieldRemotePort = some rport ∧
      jlookup kv requestFieldDoRemotePrefill = some (.bool true) ∧
      jlookup kv requestFieldDoRemoteDecode = none ∧
      jlookup d requestFieldStream = jlookup cr requestFieldStream ∧
      jlookup d requestFieldStreamOptions = jlookup cr requestFieldStreamOptions := by
  have hc : ¬ (resp.status < 200 ∨ 300 ≤ resp.status) := by omega
  have hrun : (runNIXLProtocol (some cr) resp).decodeBody =
      some (nixlDecodeBody cr kvp) := by
    simp [runNIXLProtocol, hc, hbody, hkv]
  obtain ⟨hkv1, hs1, hs2⟩ := nixlDecodeBody_lookups cr kvp
  obtain ⟨kb, ke, kh, kp, kdp, kdd⟩ := nixlDecodeKv_lookups kvp
  exact ⟨nixlDecodeBody cr kvp, nixlDecodeKv kvp, hrun, hkv1,
    by rw [kb, hb]; rfl, by rw [ke, he]; rfl, by rw [kh, hh]; rfl,
    by rw [kp, hp]; rfl, kdp, kdd, hs1, hs2⟩

theorem nixl_handshake_roundtrip_witness :
    ∃ d kv,
      (runNIXLProtocol
        (some [("model", .str "m"), (requestFieldStream, .bool true)])
        ⟨200, some [(requestFieldKVTransferParams, .obj
          [(requestFieldRemoteBlockIDs, .arr [.num 1, .num 2, .num 3]),
           (requestFieldRemoteEngineID, .str "e"),
           (requestFieldRemoteHost, .str "h"),
           (requestFieldRemotePort, .num 9)])]⟩).decodeBody = some d ∧
      jlookup d requestFieldKVTransferParams = some (.obj kv) ∧
      jlookup kv requestFieldRemoteBlockIDs = some (.arr [.num 1, .num 2, .num 3]) ∧
      jlookup kv requestFieldRemoteEngineID = some (.str "e") ∧
      jlookup kv requestFieldRemoteHost = some (.str "h") ∧
      jlookup kv requestFieldRemotePort = some (.num 9) ∧
      jlookup kv requestFieldDoRemotePrefill = some (.bool true) ∧
      jlookup kv requestFieldDoRemoteDecode = none ∧
      jlookup d requestFieldStream =
        jlookup [("model", .str "m"), (requestFieldStream, .bool true)]
          requestFieldStream ∧
      jlookup d requestFieldStreamOptions =
        jlookup [("model", .str "m"), (requestFieldStream, .bool true)]
          requestFieldStreamOptions :=
  nixl_handshake_roundtrip
    [("model", .str "m"), (requestFieldStream, .bool true)]
    ⟨200, some [(requestFieldKVTransferParams, .obj
      [(requestFieldRemoteBlockIDs, .arr [.num 1, .num 2, .num 3]),
       (requestFieldRemoteEngineID, .str "e"),
       (requestFieldRemoteHost, .str "h"),
       (requestFieldRemotePort, .num 9)])]⟩
    [(requestFieldKVTransferParams, .obj
      [(requestFieldRemoteBlockIDs, .arr [.num 1, .num 2, .num 3]),
       (requestFieldRemoteEngineID, .str "e"),
       (requestFieldRemoteHost, .str "h"),
       (requestFieldRemotePort, .num 9)])]
    [(requestFieldRemoteBlockIDs, .arr [.num 1, .num 2, .num 3]),
     (requestFieldRemoteEngineID, .str "e"),
     (requestFieldRemoteHost, .str "h"),
     (requestFieldRemotePort, .num 9)]
    (.arr [.num 1, .num 2, .num 3]) (.str "e") (.str "h") (.num 9)
    (by norm_num) (by norm_num) rfl (by rfl) (by rfl) (by rfl) (by rfl) (by rfl)

/-- C5: in both the NIXL v1 and the LMCache connector the decoder proxy
is invoked only when the buffered prefiller status is 2xx, and a status
outside [200,300) is written back to the client bare — that exact
status, no body, decoder never invoked. -/
theorem decoder_only_after_prefiller_2xx :
    (∀ (parsed : Option JObj) (resp : PrefillerResp),
      (runNIXLProtocol parsed resp).decodeBody ≠ none →
      200 ≤ resp.status ∧ resp.status < 300) ∧
    (∀ (cr : JObj) (resp : PrefillerResp),
      resp.status < 200 ∨ 300 ≤ resp.status →
      runNIXLProtocol (some cr) resp =
        { prefillBody := some (nixlPrefillBody cr),
          clientStatus := some resp.status }) ∧
    (∀ (raw : GoStr) (parsed : Option JObj) (status : Nat),
      (runLMCacheProtocol raw parsed status).decodeRaw ≠ none →
      200 ≤ status ∧ status < 300) ∧
    (∀ (raw : GoStr) (cr : JObj) (status : Nat),
      status < 200 ∨ 300 ≤ status →
      runLMCacheProtocol raw (some cr) status =
        { prefillBody := some (jset (jset cr requestFieldMaxTokens (.num 1))
            requestFieldMaxCompletionTokens (.num 1)),
          clientStatus := some status }) := by
  refine ⟨?_, ?_, ?_, ?_⟩
  · intro parsed resp hd
    by_cases hc : resp.status < 200 ∨ 300 ≤ resp.status
    · exfalso
      apply hd
      cases parsed with
      | none => rfl
      | some cr => simp [runNIXLProtocol, hc]
    · omega
  · intro cr resp hc
    simp [runNIXLProtocol, hc]
  · intro raw parsed status hd
    by_cases hc : status < 200 ∨ 300 ≤ status
    · exfalso
      apply hd
      cases parsed with
      | none => rfl
      | some cr => simp [runLMCacheProtocol, hc]
    · omega
  · intro raw cr status hc
    simp [runLMCacheProtocol, hc]

theorem decoder_only_after_prefiller_2xx_witness :
    runNIXLProtocol (some [("model", .str "m")]) ⟨503, none⟩ =
      { prefillBody := some (nixlPrefillBody [("model", .str "m")]),
        clientStatus := some 503 } ∧
    (200 ≤ 204 ∧ 204 < 300) ∧
    runLMCacheProtocol ("b".toList) (some [("model", .str "m")]) 503 =
      { prefillBody := some (jset
          (jset [("model", .str "m")] requestFieldMaxTokens (.num 1))
          requestFieldMaxCompletionTokens (.num 1)),
        clientStatus := some 503 } :=
  ⟨decoder_only_after_prefiller_2xx.2.1 [("model", .str "m")] ⟨503, none⟩
     (by norm_num),
   decoder_only_after_prefiller_2xx.1 (some [("model", .str "m")])
     ⟨204, some [(requestFieldKVTransferParams, .obj [])]⟩
     (by
       intro h
       rw [show (runNIXLProtocol (some [("model", JVal.str "m")])
           ⟨204, some [(requestFieldKVTransferParams, JVal.obj [])]⟩).decodeBody =
           some (nixlDecodeBody [("model", JVal.str "m")] []) from rfl] at h
       exact Option.some_ne_none _ h),
   decoder_only_after_prefiller_2xx.2.2.2 ("b".toList) [("model", .str "m")] 503
     (by norm_num)⟩

/-- C10: a 2xx prefiller response that parses as JSON but has no
kv_transfer_params object (key missing, or its value not an object)
makes the NIXL v1 handler log a warning and return: the decoder is not
invoked and neither a status code nor any body bytes are written to the
client. -/
theorem nixl_missing_kv_params_silent_return (cr : JObj)
    (resp : PrefillerResp) (presp : JObj)
    (hst1 : 200 ≤ resp.status) (hst2 : resp.status < 300)
    (hbody : resp.body = some presp)
    (hkv : jlookup presp requestFieldKVTransferParams = none ∨
      ∃ v, jlookup presp requestFieldKVTransferParams = some v ∧
        ∀ m, v ≠ JVal.obj m) :
    runNIXLProtocol (some cr) resp =
      { prefillBody := some (nixlPrefillBody cr) } := by
  have hc : ¬ (resp.status < 200 ∨ 300 ≤ resp.status) := by omega
  rcases hkv with hmiss | ⟨v, hv, hnotobj⟩
  · simp [runNIXLProtocol, hc, hbody, hmiss]
  · cases v with
    | obj m => exact absurd rfl (hnotobj m)
    | null => simp [runNIXLProtocol, hc, hbody, hv]
    | bool b => simp [runNIXLProtocol, hc, hbody, hv]
    | num n => simp [runNIXLProtocol, hc, hbody, hv]
    | str s => simp [runNIXLProtocol, hc, hbody, hv]
    | arr xs => simp [runNIXLProtocol, hc, hbody, hv]

theorem nixl_missing_kv_params_silent_return_witness :
    runNIXLProtocol (some [("model", .str "m")]) ⟨200, some [("id", .str "r")]⟩ =
      { prefillBody := some (nixlPrefillBody [("model", .str "m")]) } :=
  nixl_missing_kv_params_silent_return [("model", .str "m")]
    ⟨200, some [("id", .str "r")]⟩ [("id", .str "r")]
    (by norm_num) (by norm_num) rfl (Or.inl (by rfl))

theorem lruGet_of_lookup_none {c : LruCache} {k : GoStr}
    (h : c.entries.lookup k = none) : lruGet c k = (none, c) := by
  simp [lruGet, h]

theorem lruGet_of_lookup_some {c : LruCache} {k : GoStr} {v : Nat}
    (h : c.entries.lookup k = some v) :
    lruGet c k = (some v, ⟨(k, v) :: c.entries.filter (fun e => !(e.1 == k))⟩) := by
  simp [lruGet, h]

theorem prefillerProxyHandler_hit (st : ProxyState) (pfx t : GoStr) (v : Nat)
    (hget : st.cache.entries.lookup t = some v) :
    prefillerProxyHandler st pfx t =
      ⟨some v, false,
        ⟨⟨(t, v) :: st.cache.entries.filter (fun e => !(e.1 == t))⟩,
          st.nextHandlerId⟩⟩ := by
  unfold prefillerProxyHandler
  rw [lruGet_of_lookup_some hget]

theorem prefillerProxyHandler_miss_urlErr (st : ProxyState) (pfx t : GoStr)
    (hget : st.cache.entries.lookup t = none)
    (hu : urlHost (pfx ++ cutHttp t) = none) :
    prefillerProxyHandler st pfx t = ⟨none, true, st⟩ := by
  unfold prefillerProxyHandler
  rw [lruGet_of_lookup_none hget]
  simp only [hu]

theorem prefillerProxyHandler_miss_badIP (st : ProxyState) (pfx t host : GoStr)
    (hget : st.cache.entries.lookup t = none)
    (hu : urlHost (pfx ++ cutHttp t) = some host)
    (hfail : parseIPv4 host = none ∨
      ∀ ip4, parseIPv4 host = some ip4 → isPrivateOrSpecialIP ip4 = false) :
    prefillerProxyHandler st pfx t = ⟨none, false, st⟩ := by
  unfold prefillerProxyHandler
  rw [lruGet_of_lookup_none hget]
  simp only [hu]
  rcases hp : parseIPv4 host with _ | ip4
  · rfl
  · rcases hfail with hnone | hbad
    · rw [hp] at hnone
      cases hnone
    · simp only [hbad ip4 hp, Bool.false_eq_true, if_false]

theorem prefillerProxyHandler_miss_success (st : ProxyState) (pfx t host : GoStr)
    (ip4 : NetIP)
    (hget : st.cache.entries.lookup t = none)
    (hu : urlHost (pfx ++ cutHttp t) = some host)
    (hp : parseIPv4 host = some ip4)
    (hok : isPrivateOrSpecialIP ip4 = true) :
    prefillerProxyHandler st pfx t =
      ⟨some st.nextHandlerId, false,
        ⟨lruAdd st.cache (cutHttp t) st.nextHandlerId, st.nextHandlerId + 1⟩⟩ := by
  unfold prefillerProxyHandler
  rw [lruGet_of_lookup_none hget]
  simp only [hu, hp, hok, if_true]

/-- C3: when prefillerProxyHandler misses the cache and the parsed URL
host fails the IPv4 allowlist check — which includes every host:port
target, because the string handed to net.ParseIP still carries the
port — it returns a nil handler together with a nil error, and the
NIXL v1 / LMCache callers, which test only the error, proceed to
ServeHTTP on the nil handler. -/
theorem prefiller_handler_nil_nil (st : ProxyState) (pfx hostPort host : GoStr)
    (hmiss : st.cache.entries.lookup hostPort = none)
    (hhost : urlHost (pfx ++ cutHttp hostPort) = some host)
    (hfail : ':' ∈ host ∨ parseIPv4 host = none ∨
      ∀ ip4, parseIPv4 host = some ip4 → isPrivateOrSpecialIP ip4 = false) :
    (prefillerProxyHandler st pfx hostPort).handler = none ∧
    (prefillerProxyHandler st pfx hostPort).errNonNil = false ∧
    callerDispatch (prefillerProxyHandler st pfx hostPort) =
      CallerNext.nilHandlerPanic := by
  have hfail2 : parseIPv4 host = none ∨
      ∀ ip4, parseIPv4 host = some ip4 → isPrivateOrSpecialIP ip4 = false := by
    rcases hfail with hcol | h | h
    · exact Or.inl (parseIPv4_none_of_mem_colon host hcol)
    · exact Or.inl h
    · exact Or.inr h
  rw [prefillerProxyHandler_miss_badIP st pfx hostPort host hmiss hhost hfail2]
  exact ⟨rfl, rfl, rfl⟩

theorem prefiller_handler_nil_nil_witness :
    (prefillerProxyHandler ⟨⟨[]⟩, 0⟩ ("http://".toList)
      ("10.0.0.5:8000".toList)).handler = none ∧
    (prefillerProxyHandler ⟨⟨[]⟩, 0⟩ ("http://".toList)
      ("10.0.0.5:8000".toList)).errNonNil = false ∧
    callerDispatch (prefillerProxyHandler ⟨⟨[]⟩, 0⟩ ("http://".toList)
      ("10.0.0.5:8000".toList)) = CallerNext.nilHandlerPanic :=
  prefiller_handler_nil_nil ⟨⟨[]⟩, 0⟩ ("http://".toList)
    ("10.0.0.5:8000".toList) ("10.0.0.5:8000".toList)
    rfl (by decide) (Or.inl (by decide))

/-- C1, the code evaluated at the failing input: for the disallowed
public target 8.8.8.8 the handler lookup returns Go nil for both the
handler and the error, so the caller writes neither a 403 with the fixed
forbidden body nor any error response — it proceeds to ServeHTTP on a
nil handler. -/
theorem disallowed_target_survives_check :
    (prefillerProxyHandler ⟨⟨[]⟩, 0⟩ ("http://".toList)
      ("8.8.8.8".toList)).handler = none ∧
    (prefillerProxyHandler ⟨⟨[]⟩, 0⟩ ("http://".toList)
      ("8.8.8.8".toList)).errNonNil = false ∧
    callerDispatch (prefillerProxyHandler ⟨⟨[]⟩, 0⟩ ("http://".toList)
      ("8.8.8.8".toList)) = CallerNext.nilHandlerPanic := by
  decide

theorem lookup_take_cons (k : GoStr) (v : Nat) (l : List (GoStr × Nat)) :
    List.lookup k (((k, v) :: l).take lruCapacity) = some v := by
  have ht : ((k, v) :: l).take lruCapacity = (k, v) :: l.take 15 := rfl
  rw [ht]
  simp [List.lookup]

/-- C9 as stated is false on the code: the cache lookup uses the
original target string while the insertion uses the key trimmed of its
http:// scheme, so a target carrying that scheme misses the cache on the
very next call and a fresh handler is constructed. -/
theorem cached_handler_reuse_counterexample :
    ¬ (∀ (st : ProxyState) (pfx t : GoStr) (h : Nat),
        (prefillerProxyHandler st pfx t).handler = some h →
        (prefillerProxyHandler (prefillerProxyHandler st pfx t).state pfx t).handler
          = some h) := by
  intro hclaim
  have h1 : (prefillerProxyHandler ⟨⟨[]⟩, 0⟩ ("http://".toList)
      ("http://10.0.0.5".toList)).handler = some 0 := by decide
  have h2 := hclaim ⟨⟨[]⟩, 0⟩ ("http://".toList) ("http://10.0.0.5".toList) 0 h1
  have h3 : (prefillerProxyHandler
      (prefillerProxyHandler ⟨⟨[]⟩, 0⟩ ("http://".toList)
        ("http://10.0.0.5".toList)).state
      ("http://".toList) ("http://10.0.0.5".toList)).handler = some 1 := by decide
  rw [h3] at h2
  exact absurd (Option.some.inj h2) (by decide)

/-- C9 amended: for every target string without an http:// prefix for
which prefillerProxyHandler successfully returns a handler, an
immediately subsequent call with the same target string returns the same
cached handler object. A target carrying the prefix is inserted under
the trimmed key while the lookup uses the untrimmed key, so the reuse
guarantee does not extend to it. -/
theorem cached_handler_reuse (st : ProxyState) (pfx t : GoStr) (h : Nat)
    (htrim : cutHttp t = t)
    (hfirst : (prefillerProxyHandler st pfx t).handler = some h) :
    (prefillerProxyHandler (prefillerProxyHandler st pfx t).state pfx t).handler
      = some h := by
  have key : (prefillerProxyHandler st pfx t).state.cache.entries.lookup t
      = some h := by
    rcases hget : st.cache.entries.lookup t with _ | v
    · rcases hu : urlHost (pfx ++ cutHttp t) with _ | host
      · rw [prefillerProxyHandler_miss_urlErr st pfx t hget hu] at hfirst
        cases hfirst
      · rcases hp : parseIPv4 host with _ | ip4
        · rw [prefillerProxyHandler_miss_badIP st pfx t host hget hu
            (Or.inl hp)] at hfirst
          cases hfirst
        · rcases hok : isPrivateOrSpecialIP ip4 with _ | _
          · rw [prefillerProxyHandler_miss_badIP st pfx t host hget hu
              (Or.inr (fun ip4' hip4' => by
                rw [hp] at hip4'
                cases hip4'
                exact hok))] at hfirst
            cases hfirst
          · rw [prefillerProxyHandler_miss_success st pfx t host ip4 hget hu hp
              hok] at hfirst ⊢
            cases hfirst
            simp only [lruAdd, htrim]
            exact lookup_take_cons t st.nextHandlerId _
    · rw [prefillerProxyHandler_hit st pfx t v hget] at hfirst ⊢
      cases hfirst
      simp [List.lookup]
  rw [prefillerProxyHandler_hit _ pfx t h key]

theorem cached_handler_reuse_witness :
    (prefillerProxyHandler
      (prefillerProxyHandler ⟨⟨[]⟩, 0⟩ ("http://".toList)
        ("10.0.0.5".toList)).state
      ("http://".toList) ("10.0.0.5".toList)).handler = some 0 :=
  cached_handler_reuse ⟨⟨[]⟩, 0⟩ ("http://".toList) ("10.0.0.5".toList) 0
    (by decide) (by decide)

/-- C6: the prefill target comes from x-prefiller-host-port with legacy
x-prefiller-url fallback; every header occurrence is comma-split, the
entries trimmed, empties dropped and duplicates removed keeping the
first occurrence; with sampling disabled the first entry is selected;
when the header is absent or every value trims to empty the request
passes through (no target is selected). -/
theorem prefill_target_extraction :
    (∀ legacy, extractTargets [] legacy = cleanTargets legacy) ∧
    (∀ hp legacy, hp ≠ [] → extractTargets hp legacy = cleanTargets hp) ∧
    (∀ hp legacy, (extractTargets hp legacy).Nodup) ∧
    (∀ hp legacy t, t ∈ extractTargets hp legacy →
      t.isEmpty = false ∧
      ∃ s ∈ (if hp.isEmpty then legacy else hp), ∃ f ∈ splitOnChar ',' s,
        t = trimSpace f) ∧
    (∀ (ts : List GoStr) (idx : Nat), selectTarget false idx ts = ts.head?) ∧
    (∀ hp legacy,
      (∀ s ∈ (if hp.isEmpty then legacy else hp), ∀ f ∈ splitOnChar ',' s,
        (trimSpace f).isEmpty = true) →
      selectTarget false 0 (extractTargets hp legacy) = none) := by
  refine ⟨fun legacy => rfl, ?_, ?_, ?_, ?_, ?_⟩
  · intro hp legacy hne
    cases hp with
    | nil => exact absurd rfl hne
    | cons a l => rfl
  · intro hp legacy
    exact dedupFirstAux_nodup _ _
  · intro hp legacy t ht
    have ht2 := mem_of_mem_dedupFirstAux ht
    rw [List.mem_filter] at ht2
    obtain ⟨hmem, hfull⟩ := ht2
    obtain ⟨f, hf, hft⟩ := List.mem_map.mp hmem
    obtain ⟨l, hl, hfl⟩ := List.mem_flatten.mp hf
    obtain ⟨s, hs, hsl⟩ := List.mem_map.mp hl
    refine ⟨by simpa using hfull, s, hs, f, ?_, hft.symm⟩
    rw [hsl]
    exact hfl
  · intro ts idx
    cases ts <;> rfl
  · intro hp legacy hall
    have hfil :
        ((((if hp.isEmpty then legacy else hp).map
          (splitOnChar ',')).flatten).map trimSpace).filter
            (fun t => !t.isEmpty) = [] := by
      rw [List.filter_eq_nil_iff]
      intro a ha
      obtain ⟨f, hf, hft⟩ := List.mem_map.mp ha
      obtain ⟨l, hl, hfl⟩ := List.mem_flatten.mp hf
      obtain ⟨s, hs, hsl⟩ := List.mem_map.mp hl
      have := hall s hs f (hsl ▸ hfl)
      rw [← hft, this]
      simp
    show selectTarget false 0
      (cleanTargets (if hp.isEmpty then legacy else hp)) = none
    unfold cleanTargets
    rw [hfil]
    rfl

theorem prefill_target_extraction_witness :
    extractTargets [] ["a".toList] = cleanTargets ["a".toList] ∧
    extractTargets [(" a, b".toList)] [("x".toList)] =
      cleanTargets [(" a, b".toList)] ∧
    selectTarget false 0 (extractTargets [(" a, b".toList)] []) =
      some ("a".toList) ∧
    selectTarget false 0 (extractTargets [("  ".toList)] []) = none :=
  ⟨prefill_target_extraction.1 ["a".toList],
   prefill_target_extraction.2.1 [(" a, b".toList)] [("x".toList)]
     (by decide),
   by
     rw [prefill_target_extraction.2.2.2.2.1]
     decide,
   prefill_target_extraction.2.2.2.2.2 [("  ".toList)] [] (by decide)⟩

end Sidecar
